import Mathlib

/-!
A Lean model of `web_server_api.py`: the request parser (`_HttpRequest.parse`),
the response builder (`_HttpAnswer`), the route table (`Path`), and the
per-connection dispatch logic (`ConnectionThread.run`), together with proofs
about them.

Conventions:
* Python `bytes` values are `List Nat`, one entry per byte.
* Python `str` values are `String`; encoding a string to bytes maps each
  character to its code point, which agrees with UTF-8 on the ASCII strings
  this program uses.
* A Python computation that can raise an uncaught exception is modelled with
  `Option`: `none` is the exception.
* The filesystem is a function from the path string handed to the OS to the
  file's bytes (`none` when no file exists there); working-directory
  resolution of relative paths is internal to that function.
-/

namespace WebServerApi

/-- Python `bytes`: one `Nat` per byte. -/
abbrev Bytes := List Nat

/-- Encode a Python `str` as bytes, one code point per character
(identical to UTF-8 on the ASCII data this program handles). -/
def strToBytes (s : String) : Bytes :=
  s.data.map Char.toNat

/-- Fuel-driven core of Python `bytes.split(sep)` for a non-empty separator
`s :: r`: splits on non-overlapping occurrences, scanning left to right.
The fuel only bounds the recursion; `splitOnSeq1` always supplies enough. -/
def splitGo (s : Nat) (r : List Nat) : Nat → List Nat → List (List Nat)
  | _, [] => [[]]
  | 0, l => [l]
  | fuel+1, x :: xs =>
    if (s :: r).isPrefixOf (x :: xs) then
      [] :: splitGo s r fuel (xs.drop r.length)
    else
      match splitGo s r fuel xs with
      | [] => [x :: xs]
      | y :: ys => (x :: y) :: ys

/-- Python `l.split(bytes(s :: r))` for the non-empty separator `s :: r`. -/
def splitOnSeq1 (s : Nat) (r : List Nat) (l : List Nat) : List (List Nat) :=
  splitGo s r l.length l

/-- Python `line.partition(b":")` restricted to the two components the code
keeps: the bytes before the first colon (byte 58) and the bytes after it
(empty when there is no colon, exactly as `partition` returns). -/
def partitionColon : Bytes → Bytes × Bytes
  | [] => ([], [])
  | x :: xs =>
    if x = 58 then ([], xs)
    else
      let p := partitionColon xs
      (x :: p.1, p.2)

/-- One Python `dict[k] = v` assignment on an insertion-ordered association
list: an existing key keeps its position and gets the new value, a new key is
appended at the end. -/
def dictInsert (d : List (Bytes × Bytes)) (k v : Bytes) : List (Bytes × Bytes) :=
  match d with
  | [] => [(k, v)]
  | (k', v') :: rest => if k' = k then (k, v) :: rest else (k', v') :: dictInsert rest k v

/-- The Python dict built by the parser's header loop
(`for line in headers: self._headers[k] = v`). -/
def toDict (l : List (Bytes × Bytes)) : List (Bytes × Bytes) :=
  l.foldl (fun d kv => dictInsert d kv.1 kv.2) []

/-- The data `_HttpRequest.parse` stores on a successful parse: the raw
request line, its three tokens, and the header dict.  The class stores no
body: the part of the buffer after the first blank line is dropped. -/
structure HttpRequest where
  request : Bytes
  method : Bytes
  url : Bytes
  type : Bytes
  headers : List (Bytes × Bytes)
deriving DecidableEq, Repr

/-- `header, *content = datas.split(b"\r\n\r\n")`: the first chunk.
(`split` never returns an empty list, see `splitOnSeq1_ne_nil`, so the
starred unpacking never fails and `headD` is exact.) -/
def headerOf (datas : Bytes) : Bytes :=
  (splitOnSeq1 13 [10, 13, 10] datas).headD []

/-- `request, *headers = header.split(b"\r\n")`: all the CRLF-separated
lines of the header block; the first is the request line. -/
def linesOf (datas : Bytes) : List Bytes :=
  splitOnSeq1 13 [10] (headerOf datas)

/-- `_HttpRequest.parse`.  `none` models the `ValueError` that the tuple
unpacking `self._method, self._url, self._type = self._request.split(b" ")`
raises when the request line does not split into exactly three tokens; that
unpacking is the only statement of `parse` that can raise. -/
def parse (datas : Bytes) : Option HttpRequest :=
  match splitOnSeq1 32 [] ((linesOf datas).headD []) with
  | [m, u, t] =>
    some { request := (linesOf datas).headD [], method := m, url := u, type := t,
           headers := toDict ((linesOf datas).tail.map partitionColon) }
  | _ => none

/-- Whether the separator `s :: r` occurs anywhere in `l`. -/
def containsSeq (s : Nat) (r : List Nat) : List Nat → Bool
  | [] => false
  | x :: xs => (s :: r).isPrefixOf (x :: xs) || containsSeq s r xs

/-- No occurrence of the separator `s :: r` starts at any of the first `k`
positions of `l`. -/
def noMatchIn (s : Nat) (r : List Nat) : Nat → List Nat → Bool
  | 0, _ => true
  | _+1, [] => true
  | k+1, x :: xs => !((s :: r).isPrefixOf (x :: xs)) && noMatchIn s r k xs

/-- The payload of Python `set_content`: either a `str` (a handler's return
value or a canned message) or `bytes` (a file's contents). -/
inductive ContentVal where
  | s (v : String)
  | b (v : Bytes)
deriving DecidableEq, Repr

/-- `_HttpAnswer.set_content`'s `isinstance(content, str)` branch: a string
is UTF-8 encoded, bytes pass through. -/
def contentToBytes : ContentVal → Bytes
  | .s v => strToBytes v
  | .b v => v

/-- `_HttpAnswer`: the three fields `__init__` sets to `None`. -/
structure HttpAnswer where
  code : Option String
  headers : Option (List (String × String))
  content : Option Bytes
deriving DecidableEq, Repr

namespace HttpAnswer

/-- `_HttpAnswer.SUCCESS`. -/
def SUCCESS : String := "HTTP/1.1 200 OK"

/-- `_HttpAnswer.ERROR`. -/
def ERROR : String := "HTTP/1.1 404 Not Found"

/-- `_HttpAnswer.SERVER_CLOSED`. -/
def SERVER_CLOSED : String := "HTTP/1.1 503 Server closed"

/-- `_HttpAnswer.__init__` / `HttpPacket.new`. -/
def new : HttpAnswer := { code := none, headers := none, content := none }

/-- `_HttpAnswer.set_answer_code`: stores the code if it is one of
`(SUCCESS, ERROR)` and raises `TypeError` (modelled as `none`) otherwise. -/
def set_answer_code (a : HttpAnswer) (c : String) : Option HttpAnswer :=
  if c = SUCCESS ∨ c = ERROR then some { a with code := some c } else none

/-- `_HttpAnswer.set_headers`. -/
def set_headers (a : HttpAnswer) (h : List (String × String)) : HttpAnswer :=
  { a with headers := some h }

/-- `_HttpAnswer.set_content`. -/
def set_content (a : HttpAnswer) (c : ContentVal) : HttpAnswer :=
  { a with content := some (contentToBytes c) }

/-- `_HttpAnswer.as_bytes`: raises `AttributeError` (modelled as `none`)
when any of the three fields is still `None`; otherwise produces
`code + b"\r\n" + headers + b"\r\n\r\n" + content + b"\r\n\r\n"` where
`headers` is the `b"\r\n"`-join of the `k + b": " + v` lines. -/
def as_bytes (a : HttpAnswer) : Option Bytes :=
  match a.code, a.headers, a.content with
  | some code, some headers, some content =>
    some (strToBytes code ++ [13, 10] ++
      List.intercalate [13, 10]
        (headers.map fun kv => strToBytes kv.1 ++ [58, 32] ++ strToBytes kv.2) ++
      [13, 10, 13, 10] ++ content ++ [13, 10, 13, 10])
  | _, _, _ => none

end HttpAnswer

/-- `_HttpAnswer.default_error_msg`: the canned "not found" answer.  It sets
the `SUCCESS` status line (not the 404 one). -/
def default_error_msg : Option HttpAnswer :=
  (HttpAnswer.new.set_answer_code HttpAnswer.SUCCESS).map fun a =>
    (a.set_headers [("server", "Horus")]).set_content (ContentVal.s "Not found... :/")

/-- `_HttpAnswer.server_closed_msg`: passes `SERVER_CLOSED` to
`set_answer_code`, which accepts only `SUCCESS` and `ERROR`. -/
def server_closed_msg : Option HttpAnswer :=
  (HttpAnswer.new.set_answer_code HttpAnswer.SERVER_CLOSED).map fun a =>
    (a.set_headers [("server", "Horus")]).set_content (ContentVal.s "Server closed :/")

/-- The filesystem visible to the process: path string → file bytes. -/
abbrev Fs := String → Option Bytes

/-- A registered route function (the `wrapper` closure): reads the
filesystem, may raise (`none`), otherwise returns content. -/
abbrev RouteFun := Fs → Option ContentVal

/-- `Path.ALL_PATHS`: url → registered wrapper. -/
abbrev Registry := List (String × RouteFun)

/-- Whether the string starts with the character `c`. -/
def strHeadIs (c : Char) (s : String) : Bool :=
  match s.data with
  | [] => false
  | x :: _ => x = c

/-- Whether the string ends with the character `c`. -/
def strLastIs (c : Char) (s : String) : Bool :=
  match s.data.getLast? with
  | some x => x = c
  | none => false

/-- POSIX `os.path.join(a, b)` for two components: an absolute `b` wins;
otherwise `b` is appended to `a` with a slash inserted unless `a` is empty
or already ends with one. -/
def pathJoin (a b : String) : String :=
  if strHeadIs '/' b then b
  else if a = "" ∨ strLastIs '/' a then a ++ b
  else a ++ "/" ++ b

namespace Path

/-- `Path.find`: dictionary lookup in `ALL_PATHS`, `None` when absent. -/
def find : Registry → String → Option RouteFun
  | [], _ => none
  | (u, f) :: rest, url => if u = url then some f else find rest url

/-- The closure `Path.__call__` registers: if a static file is configured
and `os.path.exists(os.path.join(self.PATH, self._file))` holds, it runs
`open(self._file, "rb").read()` — note the existence check uses the joined
path while `open` uses the bare configured name — otherwise it calls the
decorated function.  A failing `open` (no file at the bare name) raises,
modelled as `none`. -/
def wrapper (basepath : String) (file : Option String) (func : Unit → ContentVal) : RouteFun :=
  fun fs =>
    match file with
    | some f =>
      if (fs (pathJoin basepath f)).isSome then (fs f).map ContentVal.b
      else some (func ())
    | none => some (func ())

end Path

/-- The dispatch section of `ConnectionThread.run` (everything between a
successful parse and `sendall`), with `alive` the thread's `_alive` flag:
`if (f := Path.find(url)) is not None and self._alive:` build a fresh 200
answer around `f()`; `elif self._alive:` use `default_error_msg`; `else:`
use `server_closed_msg`.  `none` models an uncaught exception. -/
def runAnswer (registry : Registry) (fs : Fs) (alive : Bool) (url : String) :
    Option HttpAnswer :=
  match Path.find registry url with
  | some f =>
    if alive then
      (f fs).bind fun content =>
        (HttpAnswer.new.set_answer_code HttpAnswer.SUCCESS).map fun a =>
          (a.set_headers [("server", "Horus")]).set_content content
    else server_closed_msg
  | none => if alive then default_error_msg else server_closed_msg

/-- `b"\r\n".join`-style gluing used to build test buffers: every header
line is preceded by CRLF, so `reqLine ++ joinLines lines` is the header
block `reqLine\r\nline1\r\n...\r\nlineN`. -/
def joinLines : List Bytes → Bytes
  | [] => []
  | l :: ls => 13 :: 10 :: (l ++ joinLines ls)

/-- The request line `method SP target SP version`. -/
def reqLine (m u v : Bytes) : Bytes :=
  m ++ 32 :: (u ++ 32 :: v)

/-- A full wire buffer: request line, header lines, blank line, body. -/
def buildBuffer (m u v : Bytes) (lines : List Bytes) (body : Bytes) : Bytes :=
  (reqLine m u v ++ joinLines lines) ++ 13 :: 10 :: 13 :: 10 :: body

/-- An empty filesystem. -/
def emptyFs : Fs := fun _ => none

/-- A demo route function: no static file, handler returns `"hello"`. -/
def demoRoute : RouteFun :=
  Path.wrapper "" none (fun _ => ContentVal.s "hello")

/-- A demo registry with the single route `/`. -/
def demoRegistry : Registry := [("/", demoRoute)]

/-- A filesystem holding exactly one file, `/srv/test.html`. -/
def srvFs : Fs :=
  fun p => if p = "/srv/test.html" then some (strToBytes "hello") else none

/-- A buffer whose two header lines carry the same name `A`. -/
def dupBuf : Bytes :=
  buildBuffer (strToBytes "GET") (strToBytes "/") (strToBytes "HTTP/1.1")
    [strToBytes "A:1", strToBytes "A:2"] []

/-- A header line `Host:x`. -/
def hostLine : Bytes := strToBytes "Host:x"

/-- A header line `Accept: y` (note the space after the colon). -/
def acceptLine : Bytes := strToBytes "Accept: y"

/-- A complete request buffer whose body is `AAA`. -/
def bodyBufA : Bytes := strToBytes "GET / HTTP/1.1" ++ [13, 10, 13, 10] ++ strToBytes "AAA"

/-- The same request buffer with an empty body. -/
def bodyBufB : Bytes := strToBytes "GET / HTTP/1.1" ++ [13, 10, 13, 10]

/-! ### Properties of the byte-level split -/

lemma splitGo_ne_nil (s : Nat) (r : List Nat) (fuel : Nat) (l : List Nat) :
    splitGo s r fuel l ≠ [] := by
  match fuel, l with
  | fuel, [] => simp [splitGo]
  | 0, x :: xs => simp [splitGo]
  | fuel+1, x :: xs =>
    simp only [splitGo]
    split
    · simp
    · split <;> simp

lemma splitGo_fuel (s : Nat) (r : List Nat) :
    ∀ f₁ f₂ l, l.length ≤ f₁ → l.length ≤ f₂ → splitGo s r f₁ l = splitGo s r f₂ l := by
  intro f₁
  induction f₁ with
  | zero =>
    intro f₂ l h₁ _
    have hl : l = [] := List.eq_nil_of_length_eq_zero (Nat.le_zero.mp h₁)
    subst hl
    cases f₂ <;> simp [splitGo]
  | succ f ih =>
    intro f₂ l h₁ h₂
    match l with
    | [] => cases f₂ <;> simp [splitGo]
    | x :: xs =>
      match f₂ with
      | 0 => simp at h₂
      | f₂+1 =>
        simp only [List.length_cons, Nat.add_le_add_iff_right] at h₁ h₂
        simp only [splitGo]
        rw [ih f₂ (xs.drop r.length)
              (by simp [List.length_drop]; omega) (by simp [List.length_drop]; omega),
            ih f₂ xs h₁ h₂]

lemma splitOnSeq1_ne_nil (s : Nat) (r : List Nat) (l : List Nat) :
    splitOnSeq1 s r l ≠ [] :=
  splitGo_ne_nil s r l.length l

lemma splitOnSeq1_nil (s : Nat) (r : List Nat) : splitOnSeq1 s r [] = [[]] := rfl

lemma splitOnSeq1_cons (s : Nat) (r : List Nat) (x : Nat) (xs : List Nat) :
    splitOnSeq1 s r (x :: xs) =
      if (s :: r).isPrefixOf (x :: xs) then
        [] :: splitOnSeq1 s r (xs.drop r.length)
      else
        match splitOnSeq1 s r xs with
        | [] => [x :: xs]
        | y :: ys => (x :: y) :: ys := by
  unfold splitOnSeq1
  simp only [List.length_cons, splitGo]
  rw [splitGo_fuel s r xs.length (xs.drop r.length).length (xs.drop r.length)
        (by simp [List.length_drop]) (le_refl _)]

lemma isPrefixOf_append_self : ∀ (p t : List Nat), p.isPrefixOf (p ++ t) = true := by
  intro p t
  induction p with
  | nil => simp [List.isPrefixOf]
  | cons x xs ih => simp [List.isPrefixOf, ih]

lemma isPrefixOf_self (p : List Nat) : p.isPrefixOf p = true := by
  induction p with
  | nil => rfl
  | cons x xs ih => simp [List.isPrefixOf, ih]

lemma isPrefixOf_append_of_length_le :
    ∀ (p l b : List Nat), p.length ≤ l.length →
      p.isPrefixOf (l ++ b) = p.isPrefixOf l := by
  intro p
  induction p with
  | nil => intro l b _; simp [List.isPrefixOf]
  | cons x xs ih =>
    intro l b h
    match l with
    | [] => simp at h
    | y :: l' =>
      have h' : xs.length ≤ l'.length := by simpa using h
      simp only [List.cons_append, List.isPrefixOf, List.append_eq]
      rw [ih l' b h']

lemma split_not_mem (s : Nat) (r : List Nat) :
    ∀ (a : List Nat), s ∉ a → splitOnSeq1 s r a = [a] := by
  intro a
  induction a with
  | nil => intro _; rfl
  | cons x xs ih =>
    intro h
    have hx : s ≠ x := fun e => h (e ▸ List.mem_cons_self x xs)
    have hpref : (s :: r).isPrefixOf (x :: xs) = false := by
      simp [List.isPrefixOf, hx]
    rw [splitOnSeq1_cons, hpref]
    simp only [Bool.false_eq_true, if_false]
    rw [ih (fun hm => h (List.mem_cons_of_mem _ hm))]

lemma split_of_not_contains (s : Nat) (r : List Nat) :
    ∀ (l : List Nat), containsSeq s r l = false → splitOnSeq1 s r l = [l] := by
  intro l
  induction l with
  | nil => intro _; rfl
  | cons x xs ih =>
    intro h
    simp only [containsSeq, Bool.or_eq_false_iff] at h
    obtain ⟨h₁, h₂⟩ := h
    rw [splitOnSeq1_cons, h₁]
    simp only [Bool.false_eq_true, if_false]
    rw [ih h₂]

lemma noMatchIn_zero (s : Nat) (r : List Nat) (l : List Nat) :
    noMatchIn s r 0 l = true := rfl

lemma noMatchIn_succ_cons (s : Nat) (r : List Nat) (k x : Nat) (xs : List Nat) :
    noMatchIn s r (k+1) (x :: xs) =
      (!((s :: r).isPrefixOf (x :: xs)) && noMatchIn s r k xs) := rfl

lemma noMatchIn_of_not_mem (s : Nat) (r : List Nat) :
    ∀ (a t : List Nat), s ∉ a → noMatchIn s r a.length (a ++ t) = true := by
  intro a
  induction a with
  | nil => intro t _; rfl
  | cons x xs ih =>
    intro t h
    have hx : s ≠ x := fun e => h (e ▸ List.mem_cons_self x xs)
    have hpref : (s :: r).isPrefixOf (x :: (xs ++ t)) = false := by
      simp [List.isPrefixOf, hx]
    simp only [List.cons_append, List.length_cons, noMatchIn_succ_cons, hpref]
    simp [ih t (fun hm => h (List.mem_cons_of_mem _ hm))]

lemma noMatchIn_append_add (s : Nat) (r : List Nat) :
    ∀ (a : List Nat) (k : Nat) (t : List Nat),
      noMatchIn s r (a.length + k) (a ++ t) =
        (noMatchIn s r a.length (a ++ t) && noMatchIn s r k t) := by
  intro a
  induction a with
  | nil => intro k t; simp [noMatchIn_zero]
  | cons x xs ih =>
    intro k t
    simp only [List.length_cons, List.cons_append]
    rw [show xs.length + 1 + k = (xs.length + k) + 1 from by omega,
        noMatchIn_succ_cons, noMatchIn_succ_cons, ih k t, Bool.and_assoc]

lemma split_boundary (s : Nat) (r : List Nat) :
    ∀ (a b : List Nat), noMatchIn s r a.length (a ++ (s :: r) ++ b) = true →
      splitOnSeq1 s r (a ++ (s :: r) ++ b) = a :: splitOnSeq1 s r b := by
  intro a
  induction a with
  | nil =>
    intro b _
    simp only [List.nil_append]
    rw [show (s :: r) ++ b = s :: (r ++ b) from rfl, splitOnSeq1_cons]
    have hc : (s :: r).isPrefixOf (s :: (r ++ b)) = true :=
      isPrefixOf_append_self (s :: r) b
    rw [hc]
    simp only [if_true]
    rw [List.drop_left]
  | cons x a' ih =>
    intro b h
    simp only [List.cons_append, List.length_cons, noMatchIn_succ_cons,
      Bool.and_eq_true, Bool.not_eq_true'] at h
    obtain ⟨hp, hrest⟩ := h
    simp only [List.cons_append]
    rw [splitOnSeq1_cons, hp]
    simp only [Bool.false_eq_true, if_false]
    rw [ih b hrest]

lemma split_headD_append (s : Nat) (r : List Nat) :
    ∀ (a b : List Nat),
      (splitOnSeq1 s r (a ++ (s :: r) ++ b)).headD [] =
        (splitOnSeq1 s r (a ++ (s :: r))).headD [] := by
  intro a
  induction a with
  | nil =>
    intro b
    simp only [List.nil_append]
    rw [show (s :: r) ++ b = s :: (r ++ b) from rfl, splitOnSeq1_cons]
    have hc₁ : (s :: r).isPrefixOf (s :: (r ++ b)) = true :=
      isPrefixOf_append_self (s :: r) b
    rw [show (s :: r : List Nat) = s :: r from rfl, splitOnSeq1_cons, hc₁, isPrefixOf_self]
    simp
  | cons x a' ih =>
    intro b
    have hsh : x :: (a' ++ (s :: r) ++ b) = (x :: (a' ++ (s :: r))) ++ b := by simp
    have hlen : (s :: r).length ≤ (x :: (a' ++ (s :: r))).length := by
      simp [List.length_append]
      omega
    have hcond : (s :: r).isPrefixOf (x :: (a' ++ (s :: r) ++ b)) =
        (s :: r).isPrefixOf (x :: (a' ++ (s :: r))) := by
      rw [hsh, isPrefixOf_append_of_length_le _ _ _ hlen]
    simp only [List.cons_append]
    rw [splitOnSeq1_cons, splitOnSeq1_cons, hcond]
    cases hp : (s :: r).isPrefixOf (x :: (a' ++ (s :: r))) with
    | true => simp
    | false =>
      simp only [Bool.false_eq_true, if_false]
      obtain ⟨y, ys, hy⟩ :=
        List.exists_cons_of_ne_nil (splitOnSeq1_ne_nil s r (a' ++ (s :: r) ++ b))
      obtain ⟨z, zs, hz⟩ :=
        List.exists_cons_of_ne_nil (splitOnSeq1_ne_nil s r (a' ++ (s :: r)))
      rw [hy, hz]
      simp only [List.headD_cons]
      have hih := ih b
      rw [hy, hz] at hih
      simp only [List.headD_cons] at hih
      rw [hih]

lemma split_boundary' (s : Nat) (r : List Nat) (a b : List Nat) (ha : s ∉ a) :
    splitOnSeq1 s r (a ++ (s :: r) ++ b) = a :: splitOnSeq1 s r b := by
  apply split_boundary
  have h := noMatchIn_of_not_mem s r a ((s :: r) ++ b) ha
  rwa [← List.append_assoc] at h

/-! ### Recovering the pieces of a constructed buffer -/

lemma split_join_crlf :
    ∀ (lines : List Bytes) (a : Bytes), (13 : Nat) ∉ a → (∀ l ∈ lines, (13 : Nat) ∉ l) →
      splitOnSeq1 13 [10] (a ++ joinLines lines) = a :: lines := by
  intro lines
  induction lines with
  | nil =>
    intro a ha _
    simp only [joinLines, List.append_nil]
    exact split_not_mem 13 [10] a ha
  | cons l ls ih =>
    intro a ha hl
    have hshape : a ++ joinLines (l :: ls) = a ++ (13 :: [10]) ++ (l ++ joinLines ls) := by
      simp [joinLines]
    rw [hshape, split_boundary' 13 [10] a (l ++ joinLines ls) ha,
        ih l (hl l (List.mem_cons_self l ls)) (fun t ht => hl t (List.mem_cons_of_mem l ht))]

lemma noMatch_join :
    ∀ (lines : List Bytes), (∀ l ∈ lines, l ≠ [] ∧ (13 : Nat) ∉ l) →
      ∀ (t : List Nat),
        noMatchIn 13 [10, 13, 10] (joinLines lines).length (joinLines lines ++ t) = true := by
  intro lines
  induction lines with
  | nil => intro _ t; rfl
  | cons l ls ih =>
    intro h t
    obtain ⟨hne, h13⟩ := h l (List.mem_cons_self l ls)
    obtain ⟨c, l', rfl⟩ := List.exists_cons_of_ne_nil hne
    have hc13 : ¬ ((13 : Nat) = c) := fun e => h13 (by rw [← e] at h13 ⊢; exact List.mem_cons_self _ _)
    have hstep : joinLines ((c :: l') :: ls) ++ t
        = 13 :: 10 :: c :: (l' ++ (joinLines ls ++ t)) := by
      simp [joinLines, List.append_assoc]
    have hlen : (joinLines ((c :: l') :: ls)).length
        = (l'.length + (joinLines ls).length) + 3 := by
      simp [joinLines]
      try omega
    rw [hstep, hlen]
    have hunf : noMatchIn 13 [10, 13, 10] ((l'.length + (joinLines ls).length) + 3)
        (13 :: 10 :: c :: (l' ++ (joinLines ls ++ t)))
        = (!([13, 10, 13, 10] : List Nat).isPrefixOf (13 :: 10 :: c :: (l' ++ (joinLines ls ++ t)))
           && (!([13, 10, 13, 10] : List Nat).isPrefixOf (10 :: c :: (l' ++ (joinLines ls ++ t)))
               && noMatchIn 13 [10, 13, 10] ((l'.length + (joinLines ls).length) + 1)
                   (c :: (l' ++ (joinLines ls ++ t))))) := rfl
    rw [hunf]
    have hp1 : ([13, 10, 13, 10] : List Nat).isPrefixOf
        (13 :: 10 :: c :: (l' ++ (joinLines ls ++ t))) = false := by
      simp [List.isPrefixOf, hc13]
    have hp2 : ([13, 10, 13, 10] : List Nat).isPrefixOf
        (10 :: c :: (l' ++ (joinLines ls ++ t))) = false := by
      simp [List.isPrefixOf]
    have hrest : noMatchIn 13 [10, 13, 10] ((l'.length + (joinLines ls).length) + 1)
        (c :: (l' ++ (joinLines ls ++ t))) = true := by
      have e1 : (l'.length + (joinLines ls).length) + 1
          = (c :: l').length + (joinLines ls).length := by
        simp
        omega
      have e2 : c :: (l' ++ (joinLines ls ++ t)) = (c :: l') ++ (joinLines ls ++ t) := by simp
      rw [e1, e2, noMatchIn_append_add,
          noMatchIn_of_not_mem 13 [10, 13, 10] (c :: l') (joinLines ls ++ t) h13,
          ih (fun x hx => h x (List.mem_cons_of_mem _ hx)) t]
      rfl
    rw [hp1, hp2, hrest]
    rfl

lemma not_mem_reqLine (m u v : Bytes) (w : Nat) (hw : w ≠ 32)
    (hm : w ∉ m) (hu : w ∉ u) (hv : w ∉ v) : w ∉ reqLine m u v := by
  simp [reqLine, List.mem_append, List.mem_cons, hm, hu, hv, hw]

lemma headerOf_build (m u v : Bytes) (lines : List Bytes) (body : Bytes)
    (hm : (13 : Nat) ∉ m) (hu : (13 : Nat) ∉ u) (hv : (13 : Nat) ∉ v)
    (hlines : ∀ l ∈ lines, l ≠ [] ∧ (13 : Nat) ∉ l) :
    headerOf (buildBuffer m u v lines body) = reqLine m u v ++ joinLines lines := by
  have h13 : (13 : Nat) ∉ reqLine m u v :=
    not_mem_reqLine m u v 13 (by omega) hm hu hv
  unfold headerOf buildBuffer
  have hsh : (reqLine m u v ++ joinLines lines) ++ 13 :: 10 :: 13 :: 10 :: body
      = (reqLine m u v ++ joinLines lines) ++ (13 :: [10, 13, 10]) ++ body := by
    simp
  rw [hsh, split_boundary 13 [10, 13, 10] _ body ?hnm]
  · simp
  case hnm =>
    have hlen : (reqLine m u v ++ joinLines lines).length
        = (reqLine m u v).length + (joinLines lines).length := by
      simp
    have hsh2 : ((reqLine m u v ++ joinLines lines) ++ (13 :: [10, 13, 10])) ++ body
        = reqLine m u v ++ (joinLines lines ++ ((13 :: [10, 13, 10]) ++ body)) := by
      simp [List.append_assoc]
    rw [hlen, hsh2, noMatchIn_append_add,
        noMatchIn_of_not_mem 13 [10, 13, 10] (reqLine m u v) _ h13]
    have hj := noMatch_join lines hlines ((13 :: [10, 13, 10]) ++ body)
    rw [← List.append_assoc] at hj
    rw [← List.append_assoc]
    rw [hj]
    rfl

lemma linesOf_build (m u v : Bytes) (lines : List Bytes) (body : Bytes)
    (hm : (13 : Nat) ∉ m) (hu : (13 : Nat) ∉ u) (hv : (13 : Nat) ∉ v)
    (hlines : ∀ l ∈ lines, l ≠ [] ∧ (13 : Nat) ∉ l) :
    linesOf (buildBuffer m u v lines body) = reqLine m u v :: lines := by
  unfold linesOf
  rw [headerOf_build m u v lines body hm hu hv hlines]
  exact split_join_crlf lines (reqLine m u v)
    (not_mem_reqLine m u v 13 (by omega) hm hu hv)
    (fun l hl => (hlines l hl).2)

lemma split_reqLine (m u v : Bytes)
    (hm : (32 : Nat) ∉ m) (hu : (32 : Nat) ∉ u) (hv : (32 : Nat) ∉ v) :
    splitOnSeq1 32 [] (reqLine m u v) = [m, u, v] := by
  have hsh : reqLine m u v = m ++ (32 :: ([] : List Nat)) ++ (u ++ 32 :: v) := by
    simp [reqLine]
  rw [hsh, split_boundary' 32 [] m (u ++ 32 :: v) hm]
  have hsh2 : u ++ 32 :: v = u ++ (32 :: ([] : List Nat)) ++ v := by simp
  rw [hsh2, split_boundary' 32 [] u v hu, split_not_mem 32 [] v hv]

/-- Parsing a buffer assembled from a three-token request line, CR-free
non-empty header lines and an arbitrary body recovers exactly those pieces
(the body is dropped). -/
lemma parse_build (m u v : Bytes) (lines : List Bytes) (body : Bytes)
    (hm13 : (13 : Nat) ∉ m) (hu13 : (13 : Nat) ∉ u) (hv13 : (13 : Nat) ∉ v)
    (hm32 : (32 : Nat) ∉ m) (hu32 : (32 : Nat) ∉ u) (hv32 : (32 : Nat) ∉ v)
    (hlines : ∀ l ∈ lines, l ≠ [] ∧ (13 : Nat) ∉ l) :
    parse (buildBuffer m u v lines body)
      = some { request := reqLine m u v, method := m, url := u, type := v,
               headers := toDict (lines.map partitionColon) } := by
  unfold parse
  rw [linesOf_build m u v lines body hm13 hu13 hv13 hlines]
  simp only [List.headD_cons, List.tail_cons]
  rw [split_reqLine m u v hm32 hu32 hv32]

/-! ### The header dict -/

lemma dictInsert_not_mem :
    ∀ (d : List (Bytes × Bytes)) (k v : Bytes), k ∉ d.map Prod.fst →
      dictInsert d k v = d ++ [(k, v)] := by
  intro d
  induction d with
  | nil => intro k v _; rfl
  | cons p rest ih =>
    intro k v h
    obtain ⟨k', v'⟩ := p
    simp only [List.map_cons, List.mem_cons] at h
    push_neg at h
    obtain ⟨h1, h2⟩ := h
    simp only [dictInsert]
    rw [if_neg (fun e => h1 e.symm), ih k v h2]
    rfl

lemma toDict_go :
    ∀ (l d : List (Bytes × Bytes)),
      (l.map Prod.fst).Nodup → (∀ k ∈ l.map Prod.fst, k ∉ d.map Prod.fst) →
      l.foldl (fun d kv => dictInsert d kv.1 kv.2) d = d ++ l := by
  intro l
  induction l with
  | nil => intro d _ _; simp
  | cons p l' ih =>
    intro d hnodup hdis
    obtain ⟨k, v⟩ := p
    simp only [List.map_cons, List.nodup_cons] at hnodup
    obtain ⟨hk, htail⟩ := hnodup
    simp only [List.foldl_cons]
    rw [dictInsert_not_mem d k v (hdis k (by simp))]
    rw [ih (d ++ [(k, v)]) htail ?hdis']
    · simp
    case hdis' =>
      intro k' hk'
      simp only [List.map_append, List.mem_append, List.map_cons, List.map_nil,
        List.mem_singleton]
      push_neg
      refine ⟨hdis k' (by simp [hk']), ?_⟩
      intro e
      exact hk (e ▸ hk')

/-- When all keys are distinct, the header dict is just the key/value list
in input order. -/
lemma toDict_nodup (l : List (Bytes × Bytes)) (h : (l.map Prod.fst).Nodup) :
    toDict l = l := by
  have hgo := toDict_go l [] h (by simp)
  simpa [toDict] using hgo

lemma parse_isSome_iff (buf : Bytes) :
    (parse buf).isSome = true ↔
      (splitOnSeq1 32 [] ((linesOf buf).headD [])).length = 3 := by
  unfold parse
  cases hsp : splitOnSeq1 32 [] ((linesOf buf).headD []) with
  | nil => simp
  | cons a l1 =>
    cases l1 with
    | nil => simp
    | cons b l2 =>
      cases l2 with
      | nil => simp
      | cons c l3 =>
        cases l3 with
        | nil => simp
        | cons d l4 =>
          simp
          try omega

/-! ### Claims -/

/-- C1: the spec says every connection dispatched with the shutdown flag set
(`_alive = false`) is answered with the 503 status line and body
`Server closed :/`.  The code cannot do this: `server_closed_msg` passes
`SERVER_CLOSED` to `set_answer_code`, which only accepts `SUCCESS` and
`ERROR` and raises `TypeError`, so dispatch with `alive = false` always
raises and no answer is ever produced, whether or not the path is
registered. -/
theorem C1_shutdown_never_answers :
    (∀ (registry : Registry) (fs : Fs) (url : String),
        runAnswer registry fs false url = none) ∧
    server_closed_msg = none := by
  have h : server_closed_msg = none := by decide
  refine ⟨?_, h⟩
  intro registry fs url
  unfold runAnswer
  cases Path.find registry url <;> simp [h]

/-- C2: with the server alive, a request whose path is not registered gets
the canned not-found answer: body `Not found... :/` under the `SUCCESS`
status line `HTTP/1.1 200 OK` (not a 404 line). -/
theorem C2_not_found_canned (registry : Registry) (fs : Fs) (url : String)
    (h : Path.find registry url = none) :
    runAnswer registry fs true url =
      some { code := some HttpAnswer.SUCCESS,
             headers := some [("server", "Horus")],
             content := some (strToBytes "Not found... :/") } := by
  unfold runAnswer
  rw [h]
  rfl

/-- Witness for C2 at the empty registry and the path `/missing`. -/
theorem C2_not_found_canned_witness :
    Path.find ([] : Registry) "/missing" = none ∧
    runAnswer [] emptyFs true "/missing" =
      some { code := some HttpAnswer.SUCCESS,
             headers := some [("server", "Horus")],
             content := some (strToBytes "Not found... :/") } :=
  ⟨rfl, C2_not_found_canned [] emptyFs "/missing" rfl⟩

/-- C3: with the server alive, a request for a registered path is answered
with the `SUCCESS` status line, the `server: Horus` header and the content
the registered route function produced; and the registered closure produces
the handler's return value when no static file is configured or none is
present at the checked location, and the file's bytes when the configured
file is present (and the existence check and the `open` resolve to the same
file, as in the standard invocation where the base path is empty). -/
theorem C3_found_ok (registry : Registry) (fs : Fs) (url : String)
    (f : RouteFun) (c : ContentVal)
    (hfind : Path.find registry url = some f) (hrun : f fs = some c) :
    runAnswer registry fs true url =
      some { code := some HttpAnswer.SUCCESS,
             headers := some [("server", "Horus")],
             content := some (contentToBytes c) } ∧
    (∀ (bp : String) (func : Unit → ContentVal),
        Path.wrapper bp none func fs = some (func ())) ∧
    (∀ (bp sf : String) (func : Unit → ContentVal),
        fs (pathJoin bp sf) = none →
        Path.wrapper bp (some sf) func fs = some (func ())) ∧
    (∀ (bp sf : String) (func : Unit → ContentVal) (b : Bytes),
        fs (pathJoin bp sf) = some b → fs sf = some b →
        Path.wrapper bp (some sf) func fs = some (ContentVal.b b)) := by
  refine ⟨?_, ?_, ?_, ?_⟩
  · unfold runAnswer
    rw [hfind]
    simp [hrun, HttpAnswer.set_answer_code, HttpAnswer.set_headers,
      HttpAnswer.set_content, HttpAnswer.new]
  · intro bp func; rfl
  · intro bp sf func h; simp [Path.wrapper, h]
  · intro bp sf func b h1 h2; simp [Path.wrapper, h1, h2]

/-- Witness for C3 at the demo registry (route `/`, handler `"hello"`). -/
theorem C3_found_ok_witness :
    Path.find demoRegistry "/" = some demoRoute ∧
    demoRoute emptyFs = some (ContentVal.s "hello") ∧
    runAnswer demoRegistry emptyFs true "/" =
      some { code := some HttpAnswer.SUCCESS,
             headers := some [("server", "Horus")],
             content := some (strToBytes "hello") } :=
  ⟨rfl, rfl,
    (C3_found_ok demoRegistry emptyFs "/" demoRoute (ContentVal.s "hello") rfl rfl).1⟩

/-- C4 counterexample: the buffer `GET / HTTP/1.1` has no `CRLF CRLF`
delimiter, yet `parse` succeeds instead of failing as the claim states. -/
theorem C4_counterexample :
    containsSeq 13 [10, 13, 10] (strToBytes "GET / HTTP/1.1") = false ∧
    (parse (strToBytes "GET / HTTP/1.1")).isSome = true := by
  exact ⟨by decide, by decide⟩

/-- C4 amended: on a buffer with no `CRLF CRLF` delimiter, the parser
treats the whole buffer as the header block; it succeeds exactly when the
first CRLF-line splits on spaces into three tokens, and otherwise fails
(the only failure is the `ValueError` from the request-line unpacking:
the code defines no `MalformedRequest`).  Being a total function, it never
hangs. -/
theorem C4_no_delimiter (buf : Bytes)
    (h : containsSeq 13 [10, 13, 10] buf = false) :
    (parse buf).isSome = true ↔
      (splitOnSeq1 32 [] ((splitOnSeq1 13 [10] buf).headD [])).length = 3 := by
  have hhb : linesOf buf = splitOnSeq1 13 [10] buf := by
    unfold linesOf headerOf
    rw [split_of_not_contains 13 [10, 13, 10] buf h]
    rfl
  have hi := parse_isSome_iff buf
  rw [hhb] at hi
  exact hi

/-- Witness for C4 at the delimiter-free buffer `GET / HTTP/1.1`. -/
theorem C4_no_delimiter_witness :
    containsSeq 13 [10, 13, 10] (strToBytes "GET / HTTP/1.1") = false ∧
    ((parse (strToBytes "GET / HTTP/1.1")).isSome = true ↔
      (splitOnSeq1 32 []
        ((splitOnSeq1 13 [10] (strToBytes "GET / HTTP/1.1")).headD [])).length = 3) :=
  ⟨by decide, C4_no_delimiter (strToBytes "GET / HTTP/1.1") (by decide)⟩

/-- C5: the spec says a configured static file that exists is served
verbatim.  The code checks existence at `os.path.join(self.PATH,
self._file)` but then opens the bare `self._file`: with base path `/srv`,
configured file `test.html` and a filesystem holding only
`/srv/test.html`, the existence check passes and the `open` fails, so the
wrapper raises instead of serving the file's bytes.  (When no file exists
at the checked location, the handler is invoked, as claimed.) -/
theorem C5_static_check_open_mismatch :
    srvFs (pathJoin "/srv" "test.html") = some (strToBytes "hello") ∧
    Path.wrapper "/srv" (some "test.html") (fun _ => ContentVal.s "handler") srvFs
      = none ∧
    Path.wrapper "/srv" (some "missing.html") (fun _ => ContentVal.s "handler") srvFs
      = some (ContentVal.s "handler") := by
  exact ⟨by decide, by decide, by decide⟩

/-- C6: `as_bytes` fails (raises `AttributeError`) exactly when one of
status, headers or body is unset, and on a fully-set answer produces the
framing status line, CRLF, the CRLF-joined header lines, a blank line, the
body, and a final `CRLF CRLF`. -/
theorem C6_as_bytes_framing (a : HttpAnswer) :
    ((HttpAnswer.as_bytes a = none) ↔
      (a.code = none ∨ a.headers = none ∨ a.content = none)) ∧
    (∀ (c : String) (h : List (String × String)) (b : Bytes),
      HttpAnswer.as_bytes { code := some c, headers := some h, content := some b } =
        some (strToBytes c ++ [13, 10] ++
          List.intercalate [13, 10]
            (h.map fun kv => strToBytes kv.1 ++ [58, 32] ++ strToBytes kv.2) ++
          [13, 10, 13, 10] ++ b ++ [13, 10, 13, 10])) := by
  constructor
  · obtain ⟨c, hh, ct⟩ := a
    cases c <;> cases hh <;> cases ct <;> simp [HttpAnswer.as_bytes]
  · intro c h b
    rfl

/-- C7 counterexample: a well-formed buffer with two header lines `A:1`
and `A:2` parses to a header mapping with a single entry (the later value
wins), not the two entries the claim demands. -/
theorem C7_counterexample :
    parse dupBuf = some { request := strToBytes "GET / HTTP/1.1",
                          method := strToBytes "GET", url := strToBytes "/",
                          type := strToBytes "HTTP/1.1",
                          headers := [(strToBytes "A", strToBytes "2")] } ∧
    (linesOf dupBuf).tail.length = 2 := by
  exact ⟨by decide, by decide⟩

/-- C7 amended: for a well-formed buffer whose N header lines bear
pairwise distinct names, parsing yields a header mapping of exactly N
entries, each line split on its first colon with the value the untrimmed
bytes after that colon (duplicate names would overwrite, keeping the last
value, so in general the entry count is the number of distinct names). -/
theorem C7_headers_exact (m u v : Bytes) (lines : List Bytes) (body : Bytes)
    (hm13 : (13 : Nat) ∉ m) (hu13 : (13 : Nat) ∉ u) (hv13 : (13 : Nat) ∉ v)
    (hm32 : (32 : Nat) ∉ m) (hu32 : (32 : Nat) ∉ u) (hv32 : (32 : Nat) ∉ v)
    (hlines : ∀ l ∈ lines, l ≠ [] ∧ (13 : Nat) ∉ l)
    (hkeys : (lines.map fun l => (partitionColon l).1).Nodup) :
    parse (buildBuffer m u v lines body)
      = some { request := reqLine m u v, method := m, url := u, type := v,
               headers := lines.map partitionColon } ∧
    (lines.map partitionColon).length = lines.length := by
  constructor
  · rw [parse_build m u v lines body hm13 hu13 hv13 hm32 hu32 hv32 hlines]
    have hmm : (lines.map partitionColon).map Prod.fst
        = lines.map fun l => (partitionColon l).1 := by
      simp [List.map_map]
      try rfl
    rw [toDict_nodup (lines.map partitionColon) (by rw [hmm]; exact hkeys)]
  · simp

/-- Witness for C7 at a buffer with the two distinct header lines
`Host:x` and `Accept: y`. -/
theorem C7_headers_exact_witness :
    ((∀ l ∈ [hostLine, acceptLine], l ≠ [] ∧ (13 : Nat) ∉ l) ∧
      ([hostLine, acceptLine].map fun l => (partitionColon l).1).Nodup) ∧
    (parse (buildBuffer (strToBytes "GET") (strToBytes "/") (strToBytes "HTTP/1.1")
        [hostLine, acceptLine] (strToBytes "body"))
      = some { request := reqLine (strToBytes "GET") (strToBytes "/") (strToBytes "HTTP/1.1"),
               method := strToBytes "GET", url := strToBytes "/",
               type := strToBytes "HTTP/1.1",
               headers := [hostLine, acceptLine].map partitionColon } ∧
      ([hostLine, acceptLine].map partitionColon).length
        = ([hostLine, acceptLine] : List Bytes).length) :=
  ⟨⟨by decide, by decide⟩,
    C7_headers_exact (strToBytes "GET") (strToBytes "/") (strToBytes "HTTP/1.1")
      [hostLine, acceptLine] (strToBytes "body")
      (by decide) (by decide) (by decide) (by decide) (by decide) (by decide)
      (by decide) (by decide)⟩

/-- C8: parsing succeeds exactly when the request line (the first
CRLF-line of the header block) splits on single spaces into three tokens;
any other token count makes `parse` fail. -/
theorem C8_three_tokens (buf : Bytes) :
    (parse buf).isSome = true ↔
      (splitOnSeq1 32 [] ((linesOf buf).headD [])).length = 3 :=
  parse_isSome_iff buf

/-- C9 counterexample: two buffers that differ only in what follows the
first `CRLF CRLF` (body `AAA` versus empty body) parse to the same
`HttpRequest`, so no field of the parse result can equal the body
remainder for both — `parse` discards the remainder and the stored request
has no body field. -/
theorem C9_counterexample :
    parse bodyBufA = parse bodyBufB ∧
    bodyBufA ≠ bodyBufB ∧
    (parse bodyBufA).isSome = true := by
  exact ⟨by decide, by decide, by decide⟩

/-- C9 amended: the parser splits the buffer at the first `CRLF CRLF` and
uses only the part before it for method, target, version and headers;
everything after the first delimiter is discarded (the parse result does
not depend on it), and the parsed request has no body field. -/
theorem C9_body_discarded (hdr rest : Bytes) :
    parse (hdr ++ [13, 10, 13, 10] ++ rest) = parse (hdr ++ [13, 10, 13, 10]) := by
  have h : headerOf (hdr ++ [13, 10, 13, 10] ++ rest)
      = headerOf (hdr ++ [13, 10, 13, 10]) := by
    unfold headerOf
    exact split_headD_append 13 [10, 13, 10] hdr rest
  unfold parse linesOf
  rw [h]

/-- C10: `set_answer_code` accepts exactly the two status strings
`HTTP/1.1 200 OK` and `HTTP/1.1 404 Not Found` and raises `TypeError` for
every other argument — in particular for the 503 line
`HTTP/1.1 503 Server closed`, which `server_closed_msg` nevertheless
passes to it, so `server_closed_msg` itself raises. -/
theorem C10_status_whitelist :
    (∀ (a : HttpAnswer) (code : String),
        (a.set_answer_code code).isSome = true ↔
          (code = HttpAnswer.SUCCESS ∨ code = HttpAnswer.ERROR)) ∧
    HttpAnswer.new.set_answer_code HttpAnswer.SERVER_CLOSED = none ∧
    server_closed_msg = none := by
  refine ⟨?_, by decide, by decide⟩
  intro a code
  unfold HttpAnswer.set_answer_code
  by_cases h : code = HttpAnswer.SUCCESS ∨ code = HttpAnswer.ERROR
  · simp [h]
  · simp [h]

end WebServerApi
